import Mathlib

/-!
Shallow embedding of the key/mouse tracker (alicialitrtwe/key_mouse_tracker).

The authoritative source is the package version `src/key_mouse_tracker/Trackers.py`
together with `KEY_DICT.py`; the older draft `Trackers.py` at the repository root
is embedded separately where a claim refers to it (lock discipline of its
`_on_press`).

Modelling conventions:
- timestamps (Python `time.time()` reals) are integers: every claim below
  involves only ordering and exact differences of times, which are insensitive
  to the choice of linearly ordered abelian group, and integer times keep all
  definitions kernel-computable;
- a pynput key is either a `KeyCode` carrying a printable character, a named
  special key (`Key.backspace`, `Key.delete`, other members of the `Key` enum),
  or `None` for unknown keys — exactly the domain described in the docstring of
  `KeyTrackerPrivate._on_press`;
- the `_first_pressed_time` dict is an association list; Python dict assignment
  is `setKey` (upsert), `dict.pop` is `eraseKey`;
- file writes are list appends: a log file is the list of its lines;
- a Python `try/except` around a `KeyError` lookup is the `Option` match in
  `on_release`: on a missing key nothing after the failing line runs.
-/

namespace KeyMouseTracker

/-- Named special keys of the pynput `Key` enum: these have no `char` attribute.
`other name` covers every remaining member, carrying the string Python prints
for it. -/
inductive SpecialKey where
  | backspace
  | delete
  | other (name : String)
deriving DecidableEq, Repr

/-- A raw key identity as delivered by the pynput listener: a `KeyCode` with a
printable character, a named special key, or `None` (unknown). -/
inductive KeyIdentity where
  | char (c : Char)
  | special (k : SpecialKey)
  | unknown
deriving DecidableEq, Repr

/-- Characters of the left-hand keyboard side, from `KEY_DICT.py`
(`LEFT_ALPHANUM`). `Char.ofNat 96` is the backquote character. -/
def LEFT_ALPHANUM : List Char :=
  [Char.ofNat 96, '1', '2', '3', '4', '5', '6', '~', '!', '@', '#', '$', '%', '^',
   'q', 'w', 'e', 'r', 't',
   'a', 's', 'd', 'f', 'g',
   'z', 'x', 'c', 'v', 'b']

/-- Characters of the right-hand keyboard side, from `KEY_DICT.py`
(`RIGHT_ALPHANUM`). `Char.ofNat 123/125` are the curly braces, `Char.ofNat 92`
the backslash, `Char.ofNat 39` the apostrophe and `Char.ofNat 34` the double
quote. -/
def RIGHT_ALPHANUM : List Char :=
  ['7', '8', '9', '0', '&', '*', '(', ')', '-', '=', '_', '+',
   'y', 'u', 'i', 'o', 'p', '[', ']', Char.ofNat 123, Char.ofNat 125, '|', Char.ofNat 92,
   'h', 'j', 'k', 'l', ';', ':', Char.ofNat 39, Char.ofNat 34,
   'n', 'm', ',', '.', '/', '<', '>', '?']

/-- Python `str.lower`, restricted to the ASCII range that the two character
lists draw from. -/
def pyLower (c : Char) : Char := c.toLower

/-- Whether the pynput key object has a `char` attribute (true exactly for
`KeyCode`s). -/
def hasChar : KeyIdentity → Bool
  | .char _ => true
  | _ => false

/-- The `left_alphanum` differentiator of `KEY_DICT`:
`hasattr(key, 'char') and key.char.lower() in LEFT_ALPHANUM`. -/
def isLeftAlphanum : KeyIdentity → Bool
  | .char c => decide (pyLower c ∈ LEFT_ALPHANUM)
  | _ => false

/-- The `right_alphanum` differentiator of `KEY_DICT`. -/
def isRightAlphanum : KeyIdentity → Bool
  | .char c => decide (pyLower c ∈ RIGHT_ALPHANUM)
  | _ => false

/-- The `backspace` differentiator of `KEY_DICT`: `key == Key.backspace`. -/
def isBackspace (k : KeyIdentity) : Bool :=
  decide (k = KeyIdentity.special SpecialKey.backspace)

/-- The `delete` differentiator of `KEY_DICT`: `key == Key.delete`. -/
def isDelete (k : KeyIdentity) : Bool :=
  decide (k = KeyIdentity.special SpecialKey.delete)

/-- The `special` differentiator of `KEY_DICT`:
`not hasattr(key, 'char') and key != Key.backspace and key != Key.delete`. -/
def isSpecial (k : KeyIdentity) : Bool :=
  !hasChar k && !isBackspace k && !isDelete k

/-- The ordered category dictionary `KEY_DICT` of `KEY_DICT.py` (Python dicts
preserve insertion order). -/
def KEY_DICT : List (String × (KeyIdentity → Bool)) :=
  [("left_alphanum", isLeftAlphanum),
   ("right_alphanum", isRightAlphanum),
   ("backspace", isBackspace),
   ("delete", isDelete),
   ("special", isSpecial)]

/-- The categories whose differentiator accepts `k`, in dictionary order. -/
def matchingCategories (k : KeyIdentity) : List String :=
  (KEY_DICT.filter (fun p => p.2 k)).map Prod.fst

/-- A key whose lowercased character is claimed by neither keyboard-side list;
such a key is a `KeyCode` yet matches no entry of `KEY_DICT`. -/
def unlistedChar : KeyIdentity → Bool
  | .char c => !(decide (pyLower c ∈ LEFT_ALPHANUM) || decide (pyLower c ∈ RIGHT_ALPHANUM))
  | _ => false

/-- Python `str(key)` for the values that reach the `AttributeError` branch of
`_on_release` (keys without a `char` attribute, and `None`). -/
def keyStr : KeyIdentity → String
  | .char c => String.singleton c
  | .special .backspace => "Key.backspace"
  | .special .delete => "Key.delete"
  | .special (.other name) => name
  | .unknown => "None"

/-- One CSV row of the key log: `key_type,key_name,timestamp,duration`. -/
structure KeyLogRow where
  key_type : String
  key_name : String
  timestamp : ℤ
  duration : ℤ
deriving DecidableEq, Repr

/-- The row `_on_release` writes for a matching category: `f-string` access to
`key.char` succeeds exactly when the key has a `char` attribute, in which case
the sentinel `NaN` is written as the key name; the `AttributeError` branch
writes `str(key)` instead. -/
def rowFor (keyType : String) (k : KeyIdentity) (now span : ℤ) : KeyLogRow :=
  if hasChar k then ⟨keyType, "NaN", now, span⟩ else ⟨keyType, keyStr k, now, span⟩

/-- Association-list lookup, modelling `self._first_pressed_time[key]`. -/
def lookupTime : List (KeyIdentity × ℤ) → KeyIdentity → Option ℤ
  | [], _ => none
  | p :: rest, k => if p.1 = k then some p.2 else lookupTime rest k

/-- Removal of a key, modelling `self._first_pressed_time.pop(key)`. -/
def eraseKey : List (KeyIdentity × ℤ) → KeyIdentity → List (KeyIdentity × ℤ)
  | [], _ => []
  | p :: rest, k => if p.1 = k then eraseKey rest k else p :: eraseKey rest k

/-- Dict assignment `self._first_pressed_time[key] = now` (upsert). -/
def setKey (m : List (KeyIdentity × ℤ)) (k : KeyIdentity) (v : ℤ) :
    List (KeyIdentity × ℤ) :=
  (k, v) :: eraseKey m k

/-- The Python value stored in `self._last_pressed_key`: the key object itself,
which is `None` for unknown keys — indistinguishable from the initial `None`. -/
def pyKey : KeyIdentity → Option KeyIdentity
  | .unknown => none
  | k => some k

/-- Mutable state of `KeyTrackerPrivate` relevant to press/release handling,
plus the lines written to the current log file. -/
structure KeyTrackerState where
  firstPressedTime : List (KeyIdentity × ℤ)
  lastPressedKey : Option KeyIdentity
  isLastActionRelease : Bool
  log : List KeyLogRow
deriving DecidableEq, Repr

/-- State after `__init__` and a freshly opened log file: empty dict, last
pressed key `None`, last action counted as a release, no rows yet. -/
def initState : KeyTrackerState :=
  { firstPressedTime := []
    lastPressedKey := none
    isLastActionRelease := true
    log := [] }

/-- `KeyTrackerPrivate._on_press` (package version): update the first-pressed
time only when the previous action was a release or the previous key differs;
then record the key as last pressed and the action as a press. The category
loop of the handler only emits debug logging and is stateless. -/
def on_press (s : KeyTrackerState) (k : KeyIdentity) (now : ℤ) : KeyTrackerState :=
  { s with
    firstPressedTime :=
      if s.isLastActionRelease = true ∨ s.lastPressedKey ≠ pyKey k then
        setKey s.firstPressedTime k now
      else
        s.firstPressedTime
    lastPressedKey := pyKey k
    isLastActionRelease := false }

/-- `KeyTrackerPrivate._on_release` (package version): the lookup
`now - self._first_pressed_time[key]` raises `KeyError` when the key is absent,
the broad `except` swallows it and no state changes; otherwise the span is
computed, the action is recorded as a release, the dict entry is removed, and
one row is written per matching category. -/
def on_release (s : KeyTrackerState) (k : KeyIdentity) (now : ℤ) : KeyTrackerState :=
  match lookupTime s.firstPressedTime k with
  | none => s
  | some t0 =>
    { s with
      isLastActionRelease := true
      firstPressedTime := eraseKey s.firstPressedTime k
      log := s.log ++ (KEY_DICT.filter (fun p => p.2 k)).map
        (fun p => rowFor p.1 k now (now - t0)) }

/-- A keyboard event delivered by the listener. -/
inductive Event where
  | press (k : KeyIdentity) (t : ℤ)
  | release (k : KeyIdentity) (t : ℤ)
deriving DecidableEq, Repr

/-- Dispatch of one event to its handler. The lock serializes handlers, so a
run is a left fold. -/
def step (s : KeyTrackerState) : Event → KeyTrackerState
  | .press k t => on_press s k t
  | .release k t => on_release s k t

/-- A complete serialized run of events against the tracker. -/
def run (s : KeyTrackerState) (es : List Event) : KeyTrackerState :=
  es.foldl step s

/-- One line of the per-date meta file: the header written when the file is
empty, or one session summary row
`start_time,end_time,duration,git_hash` (the git hash is constant within a run
and not modelled). -/
inductive MetaEntry where
  | header
  | row (startTime endTime duration : ℤ)
deriving DecidableEq, Repr

/-- Whether a meta line is a session summary row. -/
def isRow : MetaEntry → Bool
  | .row _ _ _ => true
  | .header => false

/-- Number of summary rows in a meta file. -/
def countRows (l : List MetaEntry) : Nat :=
  (l.filter isRow).length

/-- Header line the key tracker writes first into every new log file
(`_init_log_file`). -/
def keyLogHeader : String := "key_type,key_name,timestamp,duration"

/-- Session-lifecycle state of `TrackerBase` (package version): start time of
the open session, lines of the current log file, entries of the meta file of
the current date partition, and the `stopped` flag. -/
structure SessionState where
  startTime : ℤ
  logLines : List String
  metaFile : List MetaEntry
  stopped : Bool
deriving DecidableEq, Repr

/-- `TrackerBase._end_session`: close the log file, take the end time, open the
meta file in append mode, write the header if and only if the file is empty
(`tell() == 0`), and append one summary row. -/
def end_session (s : SessionState) (tEnd : ℤ) : SessionState :=
  { s with
    metaFile :=
      (if s.metaFile = [] then [MetaEntry.header] else s.metaFile)
        ++ [MetaEntry.row s.startTime tEnd (tEnd - s.startTime)] }

/-- `TrackerBase._start_session` followed by `_init_log_file`: record the new
start time and open a fresh log file whose first line is the header row. -/
def start_session (s : SessionState) (tStart : ℤ) : SessionState :=
  { s with startTime := tStart, logLines := [keyLogHeader] }

/-- `TrackerBase.renew_session`: under the lock, `_end_session` immediately
followed by `_start_session` (the upload that follows touches no session
state). -/
def renew_session (s : SessionState) (tEnd tStart : ℤ) : SessionState :=
  start_session (end_session s tEnd) tStart

/-- `TrackerBase.stop`: `_end_session`, close the meta file handle, stop the
listener, set the `stopped` flag, upload. No guard consults the flag before
ending the session. -/
def stop (s : SessionState) (tEnd : ℤ) : SessionState :=
  { end_session s tEnd with stopped := true }

/-- A sequence of rotations: each cron firing supplies the end time of the
closing session and the start time of the next one. -/
def runRotations (s : SessionState) (ts : List (ℤ × ℤ)) : SessionState :=
  ts.foldl (fun s p => renew_session s p.1 p.2) s

/-- Python rendering of a bool inside an f-string: `str(True)` and
`str(False)`. -/
def pyStrBool (b : Bool) : String := if b then "True" else "False"

/-- The line `MouseTracker._on_click` writes:
`f-string` `click,{now},{x},{y},{button},{pressed},NaN,NaN`. The timestamp,
coordinates and button arrive from outside and are embedded by their string
rendering; the bool is rendered by Python capitalization. -/
def on_click_line (now x y button : String) (pressed : Bool) : String :=
  "click," ++ now ++ "," ++ x ++ "," ++ y ++ "," ++ button ++ ","
    ++ pyStrBool pressed ++ ",NaN,NaN"

/-- Log-file state of `MouseTracker` (the lines of the open log file). -/
structure MouseState where
  logLines : List String
deriving DecidableEq, Repr

/-- `MouseTracker._on_click`: under the lock, append one formatted line to the
open log file. -/
def on_click (s : MouseState) (now x y button : String) (pressed : Bool) :
    MouseState :=
  ⟨s.logLines ++ [on_click_line now x y button pressed]⟩

/-- Lock behaviour of `KeyTrackerPrivate._on_press` in the root draft
`Trackers.py`: the handler acquires the lock, then checks
`if self.stopped: return False` before entering the `try/finally` that releases
the lock. The first component is the state after the call, the second is
whether the lock is still held when the handler returns. -/
def on_press_draft (stopped : Bool) (s : KeyTrackerState) (k : KeyIdentity)
    (now : ℤ) : KeyTrackerState × Bool :=
  if stopped then (s, true) else (on_press s k now, false)

/-- Lock behaviour of the package version of `KeyTrackerPrivate._on_press`:
the whole body after `acquire` sits inside `try ... finally: release`, so the
lock is free when the handler returns, on every path. -/
def on_press_final (s : KeyTrackerState) (k : KeyIdentity) (now : ℤ) :
    KeyTrackerState × Bool :=
  (on_press s k now, false)

/-! Helper lemmas about the association-list operations. -/

theorem lookupTime_setKey_self (m : List (KeyIdentity × ℤ)) (k : KeyIdentity)
    (v : ℤ) : lookupTime (setKey m k v) k = some v := by
  simp [setKey, lookupTime]

theorem lookupTime_eraseKey_self (m : List (KeyIdentity × ℤ)) (k : KeyIdentity) :
    lookupTime (eraseKey m k) k = none := by
  induction m with
  | nil => rfl
  | cons p rest ih =>
    by_cases h : p.1 = k <;> simp [eraseKey, lookupTime, h, ih]

theorem eraseKey_sublist (m : List (KeyIdentity × ℤ)) (k : KeyIdentity) :
    (eraseKey m k).Sublist m := by
  induction m with
  | nil => simp [eraseKey]
  | cons p rest ih =>
    by_cases h : p.1 = k
    · simp only [eraseKey, if_pos h]
      exact ih.cons p
    · simp only [eraseKey, if_neg h]
      exact ih.cons₂ p

theorem not_mem_keys_eraseKey (m : List (KeyIdentity × ℤ)) (k : KeyIdentity) :
    k ∉ (eraseKey m k).map Prod.fst := by
  induction m with
  | nil => simp [eraseKey]
  | cons p rest ih =>
    by_cases h : p.1 = k <;> simp [eraseKey, h, ih]
    exact fun hk => h hk.symm

theorem nodup_keys_eraseKey (m : List (KeyIdentity × ℤ)) (k : KeyIdentity)
    (h : (m.map Prod.fst).Nodup) : ((eraseKey m k).map Prod.fst).Nodup :=
  (((eraseKey_sublist m k).map Prod.fst).nodup h)

theorem nodup_keys_setKey (m : List (KeyIdentity × ℤ)) (k : KeyIdentity) (v : ℤ)
    (h : (m.map Prod.fst).Nodup) : ((setKey m k v).map Prod.fst).Nodup := by
  simp only [setKey, List.map_cons, List.nodup_cons]
  exact ⟨not_mem_keys_eraseKey m k, nodup_keys_eraseKey m k h⟩

/-- Each handler keeps the keys of the press-record dict duplicate-free. -/
theorem nodup_keys_step (s : KeyTrackerState) (e : Event)
    (h : (s.firstPressedTime.map Prod.fst).Nodup) :
    ((step s e).firstPressedTime.map Prod.fst).Nodup := by
  cases e with
  | press k t =>
    simp only [step, on_press]
    split
    · exact nodup_keys_setKey _ k t h
    · exact h
  | release k t =>
    simp only [step, on_release]
    cases hl : lookupTime s.firstPressedTime k with
    | none => exact h
    | some t0 => exact nodup_keys_eraseKey _ k h

/-- Any serialized run from a state with duplicate-free press-record keys keeps
them duplicate-free. -/
theorem nodup_keys_run (es : List Event) :
    ∀ s : KeyTrackerState, (s.firstPressedTime.map Prod.fst).Nodup →
      ((run s es).firstPressedTime.map Prod.fst).Nodup := by
  induction es with
  | nil => exact fun s h => h
  | cons e es ih =>
    intro s h
    exact ih (step s e) (nodup_keys_step s e h)

/-- C3: when no press record for the key is present, `_on_release` emits no log
row, raises no error to its caller (the `KeyError` is swallowed by the broad
`except`), and leaves the tracker state unchanged, so processing of subsequent
events continues normally. -/
theorem release_without_record_is_noop (s : KeyTrackerState) (k : KeyIdentity)
    (t : ℤ) (h : lookupTime s.firstPressedTime k = none) :
    on_release s k t = s := by
  simp [on_release, h]

/-- Witness for C3: releasing a key on the fresh tracker state, where no press
was ever recorded, changes nothing. -/
theorem release_without_record_is_noop_witness :
    on_release initState (KeyIdentity.char 'a') 5 = initState :=
  release_without_record_is_noop initState (KeyIdentity.char 'a') 5 rfl

/-- C2, counterexample: pressing another key between two presses of `a` resets
the recorded first-press time of `a` (`_on_press` overwrites whenever the last
pressed key differs), so the record is not unchanged for every sequence of
intervening events. -/
theorem repeated_press_overwritten_cex :
    lookupTime ((run initState
        [Event.press (KeyIdentity.char 'a') 0,
         Event.press (KeyIdentity.char 'b') 1,
         Event.press (KeyIdentity.char 'a') 2]).firstPressedTime)
      (KeyIdentity.char 'a') ≠ some 0
    ∧ lookupTime ((run initState
        [Event.press (KeyIdentity.char 'a') 0,
         Event.press (KeyIdentity.char 'b') 1,
         Event.press (KeyIdentity.char 'a') 2]).firstPressedTime)
      (KeyIdentity.char 'a') = some 2 := by
  exact ⟨by decide, by decide⟩

/-- C2 (amended): the key-repeat debounce holds only for uninterrupted
auto-repeat — while `k` is the last pressed key and its press was the last
action, further presses of `k` (with no other events in between) leave the
recorded first-press time of `k` unchanged; an intervening press of a different
key or any release makes the next press of `k` overwrite the record. -/
theorem repeated_press_preserves_record (s : KeyTrackerState) (k : KeyIdentity)
    (ts : List ℤ) (h1 : s.lastPressedKey = pyKey k)
    (h2 : s.isLastActionRelease = false) :
    lookupTime (run s (ts.map (Event.press k))).firstPressedTime k
      = lookupTime s.firstPressedTime k := by
  induction ts generalizing s with
  | nil => rfl
  | cons t ts ih =>
    have hstep : step s (Event.press k t)
        = { s with lastPressedKey := pyKey k, isLastActionRelease := false } := by
      simp [step, on_press, h1, h2]
    have : run s ((t :: ts).map (Event.press k))
        = run { s with lastPressedKey := pyKey k, isLastActionRelease := false }
            (ts.map (Event.press k)) := by
      simp only [List.map_cons, run, List.foldl_cons, hstep]
    rw [this, ih _ rfl rfl]

/-- Witness for C2 (amended): after pressing `a` at time 0, two auto-repeat
presses of `a` leave the recorded first-press time untouched. -/
theorem repeated_press_preserves_record_witness :
    lookupTime (run (on_press initState (KeyIdentity.char 'a') 0)
        ([5, 9].map (Event.press (KeyIdentity.char 'a')))).firstPressedTime
      (KeyIdentity.char 'a')
      = lookupTime (on_press initState (KeyIdentity.char 'a') 0).firstPressedTime
        (KeyIdentity.char 'a') :=
  repeated_press_preserves_record (on_press initState (KeyIdentity.char 'a') 0)
    (KeyIdentity.char 'a') [5, 9] rfl rfl

/-- C4: a release that finds a press record removes it — immediately afterwards
the dict no longer binds the key, so a second release finds nothing — and every
run from the fresh state keeps at most one open press record per key identity
(the keys of the dict are duplicate-free). -/
theorem release_removes_press_record :
    (∀ (s : KeyTrackerState) (k : KeyIdentity) (t t0 : ℤ),
      lookupTime s.firstPressedTime k = some t0 →
      lookupTime (on_release s k t).firstPressedTime k = none)
    ∧ ∀ es : List Event,
        (((run initState es).firstPressedTime).map Prod.fst).Nodup := by
  constructor
  · intro s k t t0 h
    simp [on_release, h, lookupTime_eraseKey_self]
  · intro es
    exact nodup_keys_run es initState (by simp [initState])

/-- Witness for C4: releasing `a` right after its press removes the record, and
the two-press run has duplicate-free record keys. -/
theorem release_removes_press_record_witness :
    lookupTime (on_release (on_press initState (KeyIdentity.char 'a') 0)
        (KeyIdentity.char 'a') 3).firstPressedTime (KeyIdentity.char 'a') = none
    ∧ (((run initState [Event.press (KeyIdentity.char 'a') 0,
          Event.press (KeyIdentity.char 'b') 1]).firstPressedTime).map
        Prod.fst).Nodup :=
  ⟨release_removes_press_record.1 (on_press initState (KeyIdentity.char 'a') 0)
      (KeyIdentity.char 'a') 3 0 (by decide),
   release_removes_press_record.2
      [Event.press (KeyIdentity.char 'a') 0, Event.press (KeyIdentity.char 'b') 1]⟩

/-- The two keyboard-side character lists are disjoint. -/
theorem left_right_disjoint : ∀ c ∈ LEFT_ALPHANUM, c ∉ RIGHT_ALPHANUM := by
  decide

/-- Exactly one `KEY_DICT` entry accepts any key, except a `KeyCode` whose
lowercased character is in neither side list, which no entry accepts. -/
theorem matchingCategories_length (k : KeyIdentity) :
    (matchingCategories k).length = if unlistedChar k = true then 0 else 1 := by
  cases k with
  | char c =>
    have hb : isBackspace (KeyIdentity.char c) = false := rfl
    have hd : isDelete (KeyIdentity.char c) = false := rfl
    have hs : isSpecial (KeyIdentity.char c) = false := rfl
    by_cases hL : pyLower c ∈ LEFT_ALPHANUM
    · have hR : pyLower c ∉ RIGHT_ALPHANUM := left_right_disjoint _ hL
      simp [matchingCategories, KEY_DICT, List.filter_cons, unlistedChar,
        isLeftAlphanum, isRightAlphanum, hb, hd, hs, hL, hR]
    · by_cases hR : pyLower c ∈ RIGHT_ALPHANUM <;>
        simp [matchingCategories, KEY_DICT, List.filter_cons, unlistedChar,
          isLeftAlphanum, isRightAlphanum, hb, hd, hs, hL, hR]
  | special sk =>
    cases sk <;> simp [matchingCategories, KEY_DICT, unlistedChar,
      isLeftAlphanum, isRightAlphanum, isBackspace, isDelete, isSpecial, hasChar]
  | unknown => decide

/-- C5, counterexample: the `KeyCode` for a character outside both side lists
(here the accented letter) matches no category at all, so the categories are
not exhaustive and "exactly one matches" fails. -/
theorem classify_not_exhaustive_cex :
    (matchingCategories (KeyIdentity.char 'é')).length ≠ 1
    ∧ matchingCategories (KeyIdentity.char 'é') = [] := by
  exact ⟨by decide, by decide⟩

/-- C5 (amended): classification is total and the categories are pairwise
disjoint — every key identity matches exactly one of the five categories,
except a character key whose lowercased character is in neither side list,
which matches none (it has a `char` attribute, so it is not `special` either).
-/
theorem classify_at_most_one (k : KeyIdentity) :
    (matchingCategories k).length = if unlistedChar k = true then 0 else 1 :=
  matchingCategories_length k

/-- Log output of an isolated press/release pair: the fresh state records the
press (the last action was counted as a release), the release finds it, and one
row is written per matching `KEY_DICT` entry, timestamped with the release
time. -/
theorem run_press_release (k : KeyIdentity) (t0 t1 : ℤ) :
    (run initState [Event.press k t0, Event.release k t1]).log
      = (KEY_DICT.filter (fun p => p.2 k)).map
          (fun p => rowFor p.1 k t1 (t1 - t0)) := by
  have h1 : on_press initState k t0
      = { firstPressedTime := [(k, t0)], lastPressedKey := pyKey k,
          isLastActionRelease := false, log := [] } := by
    simp [on_press, initState, setKey, eraseKey]
  show (on_release (on_press initState k t0) k t1).log = _
  rw [h1]
  simp [on_release, lookupTime]

/-- C1, counterexample: for a character key outside both side lists no category
matches, so the release writes no row at all — press then release does not emit
exactly one row for every key. -/
theorem press_release_no_row_cex :
    ¬ ∃ row : KeyLogRow,
      (run initState [Event.press (KeyIdentity.char 'é') 0,
        Event.release (KeyIdentity.char 'é') 1]).log = [row] := by
  have h : (run initState [Event.press (KeyIdentity.char 'é') 0,
      Event.release (KeyIdentity.char 'é') 1]).log = [] := by decide
  rintro ⟨row, hr⟩
  rw [h] at hr
  simp at hr

/-- C1 (amended): for every key matched by some `KEY_DICT` category (all keys
except character keys outside both side lists), press at `t0` then release at
`t1 ≥ t0` with no other events in between emits exactly one key log row, whose
duration is `t1 - t0` and whose timestamp is the release time `t1`. -/
theorem press_release_logs_single_row (k : KeyIdentity) (t0 t1 : ℤ)
    (_hle : t0 ≤ t1) (hk : unlistedChar k = false) :
    ∃ row : KeyLogRow,
      (run initState [Event.press k t0, Event.release k t1]).log = [row]
      ∧ row.timestamp = t1 ∧ row.duration = t1 - t0 := by
  have hlen : (KEY_DICT.filter (fun p => p.2 k)).length = 1 := by
    have h := matchingCategories_length k
    rw [hk] at h
    simpa [matchingCategories] using h
  obtain ⟨p, hp⟩ := List.length_eq_one.mp hlen
  refine ⟨rowFor p.1 k t1 (t1 - t0), ?_, ?_, ?_⟩
  · rw [run_press_release, hp]
    rfl
  · unfold rowFor
    split <;> rfl
  · unfold rowFor
    split <;> rfl

/-- Witness for C1 (amended): pressing `a` at 0 and releasing it at 2 yields
one row with timestamp 2 and duration 2. -/
theorem press_release_logs_single_row_witness :
    (0 : ℤ) ≤ 2 ∧ unlistedChar (KeyIdentity.char 'a') = false
    ∧ ∃ row : KeyLogRow,
        (run initState [Event.press (KeyIdentity.char 'a') 0,
          Event.release (KeyIdentity.char 'a') 2]).log = [row]
        ∧ row.timestamp = 2 ∧ row.duration = 2 - 0 :=
  ⟨by decide, by decide,
   press_release_logs_single_row (KeyIdentity.char 'a') 0 2 (by decide)
     (by decide)⟩

/-- For a character key, every row of an isolated press/release run carries the
sentinel as key name, and the rows depend on the raw character only through its
category list. -/
theorem log_run_char (c : Char) (t0 t1 : ℤ) :
    (run initState [Event.press (KeyIdentity.char c) t0,
      Event.release (KeyIdentity.char c) t1]).log
      = (matchingCategories (KeyIdentity.char c)).map
          (fun name => ⟨name, "NaN", t1, t1 - t0⟩) := by
  rw [run_press_release]
  simp [matchingCategories, List.map_map, rowFor, hasChar, Function.comp]

/-- For a named special key, every row of an isolated press/release run carries
the literal key name. -/
theorem log_run_special (sk : SpecialKey) (t0 t1 : ℤ) :
    (run initState [Event.press (KeyIdentity.special sk) t0,
      Event.release (KeyIdentity.special sk) t1]).log
      = (matchingCategories (KeyIdentity.special sk)).map
          (fun name => ⟨name, keyStr (KeyIdentity.special sk), t1, t1 - t0⟩) := by
  rw [run_press_release]
  simp [matchingCategories, List.map_map, rowFor, hasChar, Function.comp]

/-- C8: the raw character of an alphanumeric key never reaches the log — every
row written for a character key has the sentinel `NaN` as key name, two
characters classified alike produce identical logs for identical event times,
and rows for named special keys carry the literal key name. -/
theorem alphanum_key_name_is_sentinel :
    (∀ (c1 c2 : Char) (t0 t1 : ℤ),
      matchingCategories (KeyIdentity.char c1)
          = matchingCategories (KeyIdentity.char c2) →
      (run initState [Event.press (KeyIdentity.char c1) t0,
          Event.release (KeyIdentity.char c1) t1]).log
        = (run initState [Event.press (KeyIdentity.char c2) t0,
            Event.release (KeyIdentity.char c2) t1]).log)
    ∧ (∀ (c : Char) (t0 t1 : ℤ) (row : KeyLogRow),
      row ∈ (run initState [Event.press (KeyIdentity.char c) t0,
          Event.release (KeyIdentity.char c) t1]).log →
      row.key_name = "NaN")
    ∧ (∀ (sk : SpecialKey) (t0 t1 : ℤ) (row : KeyLogRow),
      row ∈ (run initState [Event.press (KeyIdentity.special sk) t0,
          Event.release (KeyIdentity.special sk) t1]).log →
      row.key_name = keyStr (KeyIdentity.special sk)) := by
  refine ⟨?_, ?_, ?_⟩
  · intro c1 c2 t0 t1 h
    rw [log_run_char, log_run_char, h]
  · intro c t0 t1 row hrow
    rw [log_run_char] at hrow
    obtain ⟨name, _, rfl⟩ := List.mem_map.mp hrow
    rfl
  · intro sk t0 t1 row hrow
    rw [log_run_special] at hrow
    obtain ⟨name, _, rfl⟩ := List.mem_map.mp hrow
    rfl

/-- Witness for C8: `a` and `s` are both left alphanumeric and so produce the
same log; the one row of the run of `a` has the sentinel key name; the run of
backspace carries the literal name. -/
theorem alphanum_key_name_is_sentinel_witness :
    ((run initState [Event.press (KeyIdentity.char 'a') 0,
        Event.release (KeyIdentity.char 'a') 1]).log
      = (run initState [Event.press (KeyIdentity.char 's') 0,
          Event.release (KeyIdentity.char 's') 1]).log)
    ∧ (KeyLogRow.mk "left_alphanum" "NaN" 1 1).key_name = "NaN"
    ∧ (KeyLogRow.mk "backspace" "Key.backspace" 1 1).key_name
        = keyStr (KeyIdentity.special SpecialKey.backspace) :=
  ⟨alphanum_key_name_is_sentinel.1 'a' 's' 0 1 (by decide),
   alphanum_key_name_is_sentinel.2.1 'a' 0 1 _ (by decide),
   alphanum_key_name_is_sentinel.2.2 SpecialKey.backspace 0 1 _ (by decide)⟩

/-- A rotation from a meta file led by the header and otherwise made of summary
rows appends exactly one further summary row. -/
theorem runRotations_rows_aux (ts : List (ℤ × ℤ)) :
    ∀ (s : SessionState) (rows : List MetaEntry),
      s.metaFile = MetaEntry.header :: rows →
      ∃ rows2 : List MetaEntry,
        (runRotations s ts).metaFile = MetaEntry.header :: (rows ++ rows2)
        ∧ rows2.length = ts.length
        ∧ ∀ e ∈ rows2, isRow e = true := by
  induction ts with
  | nil =>
    intro s rows h
    exact ⟨[], by simpa [runRotations] using h, rfl, by simp⟩
  | cons p ts ih =>
    intro s rows h
    have hmeta : (renew_session s p.1 p.2).metaFile
        = MetaEntry.header
            :: (rows ++ [MetaEntry.row s.startTime p.1 (p.1 - s.startTime)]) := by
      simp [renew_session, end_session, start_session, h]
    have hrun : runRotations s (p :: ts)
        = runRotations (renew_session s p.1 p.2) ts := rfl
    obtain ⟨rows2, h1, h2, h3⟩ := ih (renew_session s p.1 p.2) _ hmeta
    refine ⟨MetaEntry.row s.startTime p.1 (p.1 - s.startTime) :: rows2, ?_, ?_, ?_⟩
    · rw [hrun, h1]
      simp
    · simp [h2]
    · intro e he
      rcases List.mem_cons.mp he with rfl | he
      · rfl
      · exact h3 e he

/-- C6: a rotation appends exactly one summary row, whose end time exceeds the
session start time (the clock advanced since the session opened), and
immediately reopens a log file whose first line is the header row; since the
meta file is opened in append mode and its header is written only when the file
is empty, `n` rotations from a fresh meta file leave exactly `n` summary rows
after a single header. -/
theorem rotate_appends_one_summary :
    (∀ (s : SessionState) (tEnd tStart : ℤ), s.startTime < tEnd →
      ∃ a b d : ℤ, a < b
        ∧ (renew_session s tEnd tStart).metaFile
            = (if s.metaFile = [] then [MetaEntry.header] else s.metaFile)
              ++ [MetaEntry.row a b d]
        ∧ (renew_session s tEnd tStart).logLines = [keyLogHeader])
    ∧ (∀ (s : SessionState) (ts : List (ℤ × ℤ)), s.metaFile = [] → ts ≠ [] →
      ∃ rows : List MetaEntry,
        (runRotations s ts).metaFile = MetaEntry.header :: rows
        ∧ rows.length = ts.length
        ∧ ∀ e ∈ rows, isRow e = true) := by
  constructor
  · intro s tEnd tStart h
    exact ⟨s.startTime, tEnd, tEnd - s.startTime, h,
      by simp [renew_session, end_session, start_session], rfl⟩
  · intro s ts hmeta hts
    obtain ⟨p, ts', rfl⟩ := List.exists_cons_of_ne_nil hts
    have hfirst : (renew_session s p.1 p.2).metaFile
        = MetaEntry.header
            :: [MetaEntry.row s.startTime p.1 (p.1 - s.startTime)] := by
      simp [renew_session, end_session, start_session, hmeta]
    have hrun : runRotations s (p :: ts')
        = runRotations (renew_session s p.1 p.2) ts' := rfl
    obtain ⟨rows2, h1, h2, h3⟩ := runRotations_rows_aux ts' _ _ hfirst
    refine ⟨MetaEntry.row s.startTime p.1 (p.1 - s.startTime) :: rows2, ?_, ?_, ?_⟩
    · rw [hrun, h1]
      simp
    · simp [h2]
    · intro e he
      rcases List.mem_cons.mp he with rfl | he
      · rfl
      · exact h3 e he

/-- Witness for C6: a session opened at time 0 and rotated at time 1 appends
one summary row; a single rotation from a fresh meta file leaves one header and
one row. -/
theorem rotate_appends_one_summary_witness :
    (∃ a b d : ℤ, a < b
      ∧ (renew_session ⟨0, [keyLogHeader], [], false⟩ 1 2).metaFile
          = (if (⟨0, [keyLogHeader], [], false⟩ : SessionState).metaFile = []
              then [MetaEntry.header]
              else (⟨0, [keyLogHeader], [], false⟩ : SessionState).metaFile)
            ++ [MetaEntry.row a b d]
      ∧ (renew_session ⟨0, [keyLogHeader], [], false⟩ 1 2).logLines
          = [keyLogHeader])
    ∧ ∃ rows : List MetaEntry,
        (runRotations ⟨0, [keyLogHeader], [], false⟩ [(1, 2)]).metaFile
          = MetaEntry.header :: rows
        ∧ rows.length = [((1 : ℤ), (2 : ℤ))].length
        ∧ ∀ e ∈ rows, isRow e = true :=
  ⟨rotate_appends_one_summary.1 ⟨0, [keyLogHeader], [], false⟩ 1 2 (by decide),
   rotate_appends_one_summary.2 ⟨0, [keyLogHeader], [], false⟩ [(1, 2)] rfl
     (by simp)⟩

/-- Every `_end_session` call appends exactly one summary row to the meta
file. -/
theorem countRows_end_session (s : SessionState) (tEnd : ℤ) :
    countRows (end_session s tEnd).metaFile = countRows s.metaFile + 1 := by
  by_cases h : s.metaFile = []
  · simp [end_session, countRows, h, isRow]
  · simp [end_session, countRows, h, isRow, List.filter_append]

/-- C7, counterexample: `stop` checks no guard before `_end_session`, so a
second `stop` call on an already stopped tracker appends a second summary row
instead of leaving the single row in place. -/
theorem stop_not_idempotent_cex :
    countRows ((stop (stop ⟨0, [keyLogHeader], [], false⟩ 1) 2).metaFile) ≠ 1
    ∧ countRows ((stop (stop ⟨0, [keyLogHeader], [], false⟩ 1) 2).metaFile) = 2 :=
  ⟨by decide, by decide⟩

/-- C7 (amended): `stop` is not idempotent — it sets the `stopped` flag but
never consults it, so each of two consecutive `stop` calls runs `_end_session`
again and the meta file gains two summary rows, one per call. (Closing the
already closed file objects raises no error in Python, so the double close is
harmless at the handle level; only the summary row is duplicated.) -/
theorem stop_twice_appends_two_rows (s : SessionState) (t1 t2 : ℤ) :
    countRows ((stop (stop s t1) t2).metaFile) = countRows s.metaFile + 2
    ∧ (stop s t1).stopped = true := by
  constructor
  · have h2 : countRows ((stop (stop s t1) t2).metaFile)
        = countRows ((stop s t1).metaFile) + 1 :=
      countRows_end_session (stop s t1) t2
    have h1 : countRows ((stop s t1).metaFile) = countRows s.metaFile + 1 :=
      countRows_end_session s t1
    omega
  · rfl

/-- C9, counterexample: the f-string in `_on_click` renders a Python bool with
a capital letter, so the row written for a click with pressed set is not the
claimed `click,<ts>,x,y,left,true,NaN,NaN`. -/
theorem click_pressed_rendering_cex :
    on_click_line "100.5" "10" "20" "left" true
        ≠ "click,100.5,10,20,left,true,NaN,NaN"
    ∧ on_click_line "100.5" "10" "20" "left" true
        = "click,100.5,10,20,left,True,NaN,NaN" :=
  ⟨by decide, by decide⟩

/-- C9 (amended): a click at `(x, y)` with button `left` and pressed set
appends exactly the row `click,<ts>,x,y,left,True,NaN,NaN` to the open log
file: button and pressed carry the given values — the bool in Python
capitalization — and the dx/dy columns carry the sentinel placeholder. -/
theorem on_click_appends_formatted_line (s : MouseState) (now x y : String) :
    (on_click s now x y "left" true).logLines
      = s.logLines
        ++ ["click," ++ now ++ "," ++ x ++ "," ++ y ++ ",left,True,NaN,NaN"] := by
  have key : ∀ t : String,
      t ++ "," ++ "left" ++ "," ++ pyStrBool true ++ ",NaN,NaN"
        = t ++ ",left,True,NaN,NaN" := by
    intro t
    simp only [String.append_assoc]
    congr 1
  have hline := key ("click," ++ now ++ "," ++ x ++ "," ++ y)
  simp only [on_click, on_click_line] at hline ⊢
  rw [hline]

/-- C10: in the root draft `Trackers.py`, `_on_press` returns with the shared
lock still held whenever it is invoked after `stop` has set the stopped flag
(the early `return False` precedes the `try/finally` that releases the lock);
the packaged version of the handler releases the lock on every path. -/
theorem on_press_draft_leaks_lock :
    (on_press_draft true initState (KeyIdentity.char 'a') 0).2 = true
    ∧ ∀ (s : KeyTrackerState) (k : KeyIdentity) (t : ℤ),
        (on_press_draft true s k t).2 = true
        ∧ (on_press_draft false s k t).2 = false
        ∧ (on_press_final s k t).2 = false :=
  ⟨rfl, fun _ _ _ => ⟨rfl, rfl, rfl⟩⟩

end KeyMouseTracker
